import Mathlib

/-!
Verification of the SRM-AI contextual query-resolution pipeline.

The Python sources are shallowly embedded: Python dicts become ordered
association lists (insertion order is significant in Python 3.7+ and in
networkx node storage), Python floats that only ever hold exact decimal
constants (confidences, similarity thresholds) become `Rat`, and the
external embedding/similarity provider (SentenceTransformer) is a
parameter `sim : String → String → Rat` of every function that calls it
(the provider is deterministic for identical input, per the spec).
-/

/-! ## Python value model

A JSON-like value type for Python attribute values (str, float, None,
list, dict).  Mutual inductives are used instead of nesting `List` so
that all functions are structurally recursive and kernel-reducible. -/

mutual

inductive Value where
  | str (s : String)
  | num (q : Rat)
  | null
  | vlist (vs : VList)
  | vdict (kvs : VDict)

inductive VList where
  | nil
  | cons (v : Value) (tl : VList)

inductive VDict where
  | nil
  | cons (k : String) (v : Value) (tl : VDict)

end

/- Python `==` on values.  Dict comparison is modelled order-sensitively;
no code path under verification compares dict-valued attributes of
differing key order. -/
mutual

def Value.beq : Value → Value → Bool
  | .str a, .str b => a == b
  | .num a, .num b => a == b
  | .null, .null => true
  | .vlist a, .vlist b => VList.beq a b
  | .vdict a, .vdict b => VDict.beq a b
  | _, _ => false

def VList.beq : VList → VList → Bool
  | .nil, .nil => true
  | .cons a as, .cons b bs => Value.beq a b && VList.beq as bs
  | _, _ => false

def VDict.beq : VDict → VDict → Bool
  | .nil, .nil => true
  | .cons k a as, .cons k2 b bs => k == k2 && Value.beq a b && VDict.beq as bs
  | _, _ => false

end

instance : BEq Value := ⟨Value.beq⟩

/- Python `str()` rendering; strings render without quotes at top
level (see `pyStr`), elements of containers render like `repr()`. -/
mutual

def pyRepr : Value → String
  | .str s => "'" ++ s ++ "'"
  | .num q => toString q
  | .null => "None"
  | .vlist vs => "[" ++ String.intercalate ", " (pyReprL vs) ++ "]"
  | .vdict kvs => "\x7b" ++ String.intercalate ", " (pyReprD kvs) ++ "\x7d"

def pyReprL : VList → List String
  | .nil => []
  | .cons v tl => pyRepr v :: pyReprL tl

def pyReprD : VDict → List String
  | .nil => []
  | .cons k v tl => ("'" ++ k ++ "': " ++ pyRepr v) :: pyReprD tl

end

def pyStr : Value → String
  | .str s => s
  | v => pyRepr v

def VList.any (p : Value → Bool) : VList → Bool
  | .nil => false
  | .cons v tl => p v || VList.any p tl

def VList.toListV : VList → List Value
  | .nil => []
  | .cons v tl => v :: VList.toListV tl

def VList.ofListV : List Value → VList
  | [] => .nil
  | v :: tl => .cons v (VList.ofListV tl)

def VList.append : VList → VList → VList
  | .nil, b => b
  | .cons v tl, b => .cons v (VList.append tl b)

def VList.length : VList → Nat
  | .nil => 0
  | .cons _ tl => tl.length + 1

/-- Build a `Value.vlist` of strings (for list-of-string attributes). -/
def strs (l : List String) : Value :=
  .vlist (VList.ofListV (l.map Value.str))

def VDict.anyValue (p : Value → Bool) : VDict → Bool
  | .nil => false
  | .cons _ v tl => p v || VDict.anyValue p tl

/-- Build a `Value.vdict` from a list of string pairs. -/
def sdict (l : List (String × String)) : Value :=
  .vdict (l.foldr (fun kv acc => .cons kv.1 (.str kv.2) acc) .nil)

/-! ## Python string helpers (kernel-reducible) -/

/-- Python `s.lower()` (ASCII, which covers the corpus). -/
def pyLower (s : String) : String := String.mk (s.data.map Char.toLower)

/-- Substring test on character lists. -/
def subChars (pat : List Char) : List Char → Bool
  | [] => pat.isEmpty
  | c :: rest => pat.isPrefixOf (c :: rest) || subChars pat rest

/-- Python `pat in hay` for strings. -/
def pyIn (pat hay : String) : Bool := subChars pat.data hay.data

/-- Python `s.startswith(pre)`. -/
def pyStartsWith (s pre : String) : Bool := pre.data.isPrefixOf s.data

/-- Python `s.split()`: split on whitespace runs, dropping empty pieces. -/
def pySplitWs (s : String) : List String :=
  (s.split Char.isWhitespace).filter (fun w => w ≠ "")

/-- Python `s.strip()`. -/
def pyStrip (s : String) : String :=
  String.mk (((s.data.dropWhile Char.isWhitespace).reverse.dropWhile
    Char.isWhitespace).reverse)

/-! ## Python dict-as-association-list helpers -/

/-- First-match lookup (Python `d[k]` / `k in d` / `d.get(k)`). -/
def plookup {α : Type} : List (String × α) → String → Option α
  | [], _ => none
  | kv :: tl, k => if kv.1 == k then some kv.2 else plookup tl k

/-- Python `k in d`. -/
def pcontains {α : Type} (l : List (String × α)) (k : String) : Bool :=
  l.any (fun kv => kv.1 == k)

/-- Attribute dictionary of one graph node / JSON object. -/
abbrev Attrs := List (String × Value)

/-- Python `base.update(upd)` / `{**base, **upd}`: keys of `base` keep
their positions but take updated values; new keys of `upd` are appended
in order. -/
def pyUpdate (base upd : Attrs) : Attrs :=
  base.map (fun kv => (kv.1, (plookup upd kv.1).getD kv.2))
    ++ upd.filter (fun kv => !pcontains base kv.1)

/-! ## knowledge_graph.py — SRMKnowledgeGraph

The networkx `MultiDiGraph` node store is an insertion-ordered map from
node id to its attribute dict; the node id itself is NOT an attribute. -/

abbrev Graph := List (String × Attrs)

/-- networkx `graph.add_node(id, **attrs)`: merge into the existing
attribute dict if the node exists, else append a new node. -/
def pyAddNode (g : Graph) (id : String) (attrs : Attrs) : Graph :=
  if pcontains g id then
    g.map (fun n => if n.1 == id then (n.1, pyUpdate n.2 attrs) else n)
  else
    g ++ [(id, attrs)]

/-- `SRMKnowledgeGraph.add_entity`:
`self.graph.add_node(entity_id, type=entity_type, **(attributes or {}))`. -/
def add_entity (g : Graph) (entity_id entity_type : String)
    (attributes : Attrs) : Graph :=
  pyAddNode g entity_id (("type", Value.str entity_type) :: attributes)

/-- `SRMKnowledgeGraph.query`: keep nodes whose `type` attribute equals
`entity_type` and whose attributes match every filter pair by `==`;
each result is `{'id': node_id, **attrs}`. -/
def query (g : Graph) (entity_type : String) (filters : Attrs) :
    List Attrs :=
  g.filterMap (fun n =>
    if (plookup n.2 "type" == some (Value.str entity_type))
        && filters.all (fun kv => plookup n.2 kv.1 == some kv.2)
    then some (pyUpdate [("id", Value.str n.1)] n.2)
    else none)

/-- One attribute value matches the (lowercased) query text:
`isinstance` dispatch on str / list / dict, `str(v)` on elements. -/
def valueMatches (q : String) : Value → Bool
  | .str s => pyIn q (pyLower s)
  | .vlist vs => vs.any (fun x => pyIn q (pyLower (pyStr x)))
  | .vdict kvs => kvs.anyValue (fun x => pyIn q (pyLower (pyStr x)))
  | _ => false

/-- `SRMKnowledgeGraph.search_by_text`: a node is emitted (once, thanks
to `continue`/`break`) when the lowercased query occurs in its id or in
some attribute value. -/
def search_by_text (g : Graph) (q : String) : List Attrs :=
  let ql := pyLower q
  g.filterMap (fun n =>
    if pyIn ql (pyLower n.1) || n.2.any (fun kv => valueMatches ql kv.2)
    then some (pyUpdate [("id", Value.str n.1)] n.2)
    else none)

/-! ## Association-list lemmas -/

theorem plookup_append {α : Type} (l₁ l₂ : List (String × α)) (k : String) :
    plookup (l₁ ++ l₂) k = (plookup l₁ k).orElse (fun _ => plookup l₂ k) := by
  induction l₁ with
  | nil => simp [plookup, Option.orElse]
  | cons kv tl ih =>
    by_cases h : kv.1 = k
    · simp [plookup, h, Option.orElse]
    · simpa [plookup, h, Option.orElse] using ih

theorem plookup_update_map (base upd : Attrs) (k : String) :
    plookup (base.map (fun kv => (kv.1, (plookup upd kv.1).getD kv.2))) k
      = (plookup base k).map (fun v => (plookup upd k).getD v) := by
  induction base with
  | nil => simp [plookup]
  | cons kv tl ih =>
    by_cases h : kv.1 = k
    · subst h; simp [plookup]
    · simpa [plookup, h] using ih

theorem plookup_update_filter (base upd : Attrs) (k : String) :
    plookup (upd.filter (fun kv => !pcontains base kv.1)) k
      = if pcontains base k then none else plookup upd k := by
  induction upd with
  | nil => simp [plookup]
  | cons kv tl ih =>
    by_cases h : kv.1 = k
    · subst h
      by_cases hp : pcontains base kv.1
      · simp [plookup, hp, List.filter_cons, ih]
      · simp [plookup, hp, List.filter_cons]
    · have hb : (kv.1 == k) = false := beq_eq_false_iff_ne.mpr h
      by_cases hp : pcontains base kv.1 <;>
        simp [plookup, hp, hb, List.filter_cons, ih]

theorem pcontains_iff_plookup {α : Type} (l : List (String × α)) (k : String) :
    pcontains l k = (plookup l k).isSome := by
  induction l with
  | nil => simp [pcontains, plookup]
  | cons kv tl ih =>
    by_cases h : kv.1 = k
    · simp [pcontains, plookup, h]
    · have hb : (kv.1 == k) = false := beq_eq_false_iff_ne.mpr h
      simpa [pcontains, plookup, hb] using ih

theorem plookup_pyUpdate (base upd : Attrs) (k : String) :
    plookup (pyUpdate base upd) k
      = (plookup upd k).orElse (fun _ => plookup base k) := by
  unfold pyUpdate
  rw [plookup_append, plookup_update_map, plookup_update_filter]
  rcases hb : plookup base k with _ | vb
  · have hc : pcontains base k = false := by
      rw [pcontains_iff_plookup, hb]; rfl
    simp only [hc, if_false, Option.map_none', Option.orElse]
    cases plookup upd k <;> rfl
  · have hc : pcontains base k = true := by
      rw [pcontains_iff_plookup, hb]; rfl
    simp only [hc, if_true, Option.map_some', Option.orElse]
    cases plookup upd k <;> rfl

theorem plookup_addnode_map (g : Graph) (id : String) (u : Attrs) :
    plookup (g.map (fun n => if n.1 == id then (n.1, pyUpdate n.2 u) else n))
        id
      = (plookup g id).map (fun b => pyUpdate b u) := by
  induction g with
  | nil => simp [plookup]
  | cons n tl ih =>
    by_cases h : n.1 = id
    · simp [plookup, h]
    · have hb : (n.1 == id) = false := beq_eq_false_iff_ne.mpr h
      simpa [plookup, hb] using ih

theorem mem_pcontains {α : Type} (l : List (String × α)) (kv : String × α)
    (hm : kv ∈ l) : pcontains l kv.1 = true := by
  simp only [pcontains, List.any_eq_true]
  exact ⟨kv, hm, by simp⟩

/-- Keys of an association list are pairwise distinct (guaranteed for
every Python dict). -/
def nodupKeys {α : Type} (l : List (String × α)) : Prop :=
  (l.map Prod.fst).Nodup

instance {α : Type} (l : List (String × α)) : Decidable (nodupKeys l) :=
  inferInstanceAs (Decidable ((l.map Prod.fst).Nodup))

theorem plookup_of_mem_nodup {α : Type} (l : List (String × α))
    (h : nodupKeys l) (kv : String × α) (hm : kv ∈ l) :
    plookup l kv.1 = some kv.2 := by
  induction l with
  | nil => cases hm
  | cons hd tl ih =>
    rcases List.mem_cons.mp hm with heq | htl
    · subst heq; simp [plookup]
    · have hne : hd.1 ≠ kv.1 := by
        intro hcontra
        have hmem : kv.1 ∈ tl.map Prod.fst := List.mem_map_of_mem Prod.fst htl
        have := (List.nodup_cons.mp h).1
        exact this (hcontra ▸ hmem)
      have hb : (hd.1 == kv.1) = false := beq_eq_false_iff_ne.mpr hne
      simpa [plookup, hb] using ih (List.nodup_cons.mp h).2 htl

theorem map_id_of_mem {α : Type} (l : List α) (f : α → α)
    (h : ∀ a ∈ l, f a = a) : l.map f = l := by
  induction l with
  | nil => rfl
  | cons a tl ih =>
    rw [List.map_cons, h a (List.mem_cons_self a tl),
      ih (fun x hx => h x (List.mem_cons_of_mem a hx))]

theorem pyUpdate_self (u : Attrs) (h : nodupKeys u) : pyUpdate u u = u := by
  unfold pyUpdate
  have h1 : u.filter (fun kv => !pcontains u kv.1) = [] := by
    rw [List.filter_eq_nil_iff]
    intro kv hm
    simp [mem_pcontains u kv hm]
  have h2 : u.map (fun kv => (kv.1, (plookup u kv.1).getD kv.2)) = u := by
    apply map_id_of_mem
    intro kv hm
    rw [plookup_of_mem_nodup u h kv hm]
    rfl
  rw [h1, h2, List.append_nil]

theorem pyUpdate_update (b u : Attrs) (h : nodupKeys u) :
    pyUpdate (pyUpdate b u) u = pyUpdate b u := by
  have hXcont : ∀ kv : String × Value, kv ∈ u →
      pcontains (pyUpdate b u) kv.1 = true := by
    intro kv hm
    rw [pcontains_iff_plookup, plookup_pyUpdate]
    have : pcontains u kv.1 = true := mem_pcontains u kv hm
    rw [pcontains_iff_plookup] at this
    rcases hu : plookup u kv.1 with _ | v
    · rw [hu] at this; cases this
    · simp [Option.orElse]
  conv_lhs => rw [pyUpdate]
  have h1 : u.filter (fun kv => !pcontains (pyUpdate b u) kv.1) = [] := by
    rw [List.filter_eq_nil_iff]
    intro kv hm
    simp [hXcont kv hm]
  have h2 : (pyUpdate b u).map
      (fun kv => (kv.1, (plookup u kv.1).getD kv.2)) = pyUpdate b u := by
    apply map_id_of_mem
    intro kv hm
    rcases List.mem_append.mp hm with hmap | hfil
    · rcases List.mem_map.mp hmap with ⟨kv₀, _, heq⟩
      subst heq
      cases hu : plookup u kv₀.1 <;> simp [hu]
    · have hmu : kv ∈ u := (List.mem_filter.mp hfil).1
      rw [plookup_of_mem_nodup u h kv hmu]
      rfl
  rw [h1, h2, List.append_nil]

theorem pcontains_addnode_map (g : Graph) (id k : String) (u : Attrs) :
    pcontains
        (g.map (fun n => if n.1 == id then (n.1, pyUpdate n.2 u) else n)) k
      = pcontains g k := by
  unfold pcontains
  rw [List.any_map]
  congr 1
  funext n
  by_cases h : n.1 = id
  · simp [Function.comp, h]
  · have hb : (n.1 == id) = false := beq_eq_false_iff_ne.mpr h
    simp [Function.comp, hb]

theorem not_pcontains_key {α : Type} (l : List (String × α)) (k : String)
    (h : pcontains l k = false) : ∀ kv ∈ l, (kv.1 == k) = false := by
  intro kv hm
  by_cases heq : kv.1 = k
  · rw [← heq] at h
    rw [mem_pcontains l kv hm] at h
    cases h
  · exact beq_eq_false_iff_ne.mpr heq

/-- C2 counterexample helper: the entity store built by two conflicting
`add_entity` calls on the same id. -/
def gConflict : Graph :=
  add_entity (add_entity [] "Hostel" "facility" []) "Hostel" "location" []

/-- C2 — counterexample.  `add_entity` never raises: re-adding id
"Hostel" with the conflicting type "location" does not fail with
`DuplicateEntityError` (no such error exists in the code); it silently
overwrites the stored type. -/
theorem add_entity_conflict_overwrites_cex :
    gConflict = [("Hostel", [("type", Value.str "location")])] := rfl

/-- C2 (amended): `add_entity` always succeeds; the last write wins for
the `type` attribute (even when the id is already present with a
conflicting type), and re-adding an entity with identical type and
attributes (with duplicate-free attribute keys, as Python kwargs
guarantee) leaves the store unchanged. -/
theorem add_entity_amended :
    (∀ (g : Graph) (id t : String) (a : Attrs),
        ∃ attrs : Attrs, plookup (add_entity g id t a) id = some attrs
          ∧ plookup attrs "type" = some (Value.str t))
    ∧ ∀ (g : Graph) (id t : String) (a : Attrs),
        nodupKeys (("type", Value.str t) :: a) →
        add_entity (add_entity g id t a) id t a = add_entity g id t a := by
  constructor
  · intro g id t a
    unfold add_entity pyAddNode
    by_cases hc : pcontains g id = true
    · rw [if_pos hc, plookup_addnode_map]
      have hsome : (plookup g id).isSome := by rw [← pcontains_iff_plookup, hc]
      rcases hg : plookup g id with _ | b
      · rw [hg] at hsome; cases hsome
      · refine ⟨pyUpdate b (("type", Value.str t) :: a), by simp, ?_⟩
        rw [plookup_pyUpdate]
        rfl
    · rw [if_neg hc, plookup_append]
      have hnone : plookup g id = none := by
        have := pcontains_iff_plookup g id
        cases hg : plookup g id
        · rfl
        · rw [hg] at this
          exact absurd this.symm (by simpa using hc)
      rw [hnone]
      exact ⟨("type", Value.str t) :: a, by simp [plookup, Option.orElse], rfl⟩
  · intro g id t a hnd
    unfold add_entity pyAddNode
    by_cases hc : pcontains g id = true
    · rw [if_pos hc, if_pos (by rw [pcontains_addnode_map]; exact hc),
        List.map_map]
      apply List.map_congr_left
      intro n _
      by_cases h : n.1 = id
      · simp [Function.comp, h, pyUpdate_update n.2 _ hnd]
      · have hb : (n.1 == id) = false := beq_eq_false_iff_ne.mpr h
        simp [Function.comp, hb]
    · rw [if_neg hc]
      have hc2 :
          pcontains (g ++ [(id, ("type", Value.str t) :: a)]) id = true := by
        unfold pcontains
        rw [List.any_append]
        simp
      rw [if_pos hc2, List.map_append]
      have hcf : pcontains g id = false := by simpa using hc
      congr 1
      · apply map_id_of_mem
        intro n hm
        rw [not_pcontains_key g id hcf n hm]
        rfl
      · simp [pyUpdate_self _ hnd]

/-- C2 — witness for the amended theorem, at the concrete entity
"Hostel" of type "facility" with one extra attribute. -/
theorem add_entity_amended_witness :
    (∃ attrs : Attrs,
        plookup (add_entity [] "Hostel" "facility" [("x", Value.str "1")])
          "Hostel" = some attrs
        ∧ plookup attrs "type" = some (Value.str "facility"))
    ∧ add_entity (add_entity [] "Hostel" "facility" [("x", Value.str "1")])
        "Hostel" "facility" [("x", Value.str "1")]
      = add_entity [] "Hostel" "facility" [("x", Value.str "1")] :=
  ⟨add_entity_amended.1 [] "Hostel" "facility" [("x", Value.str "1")],
   add_entity_amended.2 [] "Hostel" "facility" [("x", Value.str "1")]
     (by decide)⟩

/-- The store on which C1 fails: a single entity added through
`add_entity` with identifier "Tech Park" and type "location". -/
def gTechPark : Graph :=
  add_entity [] "Tech Park" "location"
    [("description", Value.str "A state-of-the-art facility housing research labs and industry collaboration centers"),
     ("location", Value.str "Kattankulathur Campus")]

/-- C1 — the code evaluated at the failing input.  The entity
"Tech Park" of type "location" is in the store (an unfiltered typed
query returns it, presenting the node id under the key `id`), yet
`query("location", {"id": "Tech Park"})` returns the empty list rather
than exactly one result: the node id is not stored among the node's
attributes, so the filter key `id` never matches any attribute. -/
theorem query_id_filter_misses :
    query gTechPark "location" []
      = [[("id", Value.str "Tech Park"), ("type", Value.str "location"),
          ("description", Value.str "A state-of-the-art facility housing research labs and industry collaboration centers"),
          ("location", Value.str "Kattankulathur Campus")]]
    ∧ query gTechPark "location" [("id", Value.str "Tech Park")] = [] :=
  ⟨rfl, rfl⟩

theorem pyIn_empty (hay : String) : pyIn "" hay = true := by
  show subChars [] hay.data = true
  cases hay.data <;> rfl

theorem filterMap_if_true {α β : Type} (f : α → β) (p : α → Bool)
    (l : List α) (h : ∀ a ∈ l, p a = true) :
    (l.filterMap (fun a => if p a then some (f a) else none)) = l.map f := by
  induction l with
  | nil => rfl
  | cons a tl ih =>
    rw [List.filterMap_cons, h a (List.mem_cons_self a tl), if_pos rfl]
    · rw [List.map_cons, ih (fun x hx => h x (List.mem_cons_of_mem a hx))]

theorem filterMap_if_sublist {α β : Type} (f : α → β) (p : α → Bool)
    (l : List α) :
    (l.filterMap (fun a => if p a then some (f a) else none)).Sublist
      (l.map f) := by
  induction l with
  | nil => simp
  | cons a tl ih =>
    rw [List.filterMap_cons, List.map_cons]
    by_cases h : p a
    · rw [if_pos h]
      exact ih.cons₂ (f a)
    · rw [if_neg h]
      exact ih.cons (f a)

/-- C10: `search_by_text` with the empty query returns every node of the
graph exactly once and in order (the empty string is a substring of
every id), and for every query the result list is a sublist of that
all-nodes list, so each matching entity appears at most once even when
its id and several attributes all match. -/
theorem search_by_text_empty_and_once :
    ∀ g : Graph,
      search_by_text g ""
          = g.map (fun n => pyUpdate [("id", Value.str n.1)] n.2)
        ∧ ∀ q : String,
            (search_by_text g q).Sublist (search_by_text g "") := by
  intro g
  have hempty : search_by_text g ""
      = g.map (fun n => pyUpdate [("id", Value.str n.1)] n.2) := by
    unfold search_by_text
    apply filterMap_if_true
    intro n _
    rw [show pyLower "" = "" from rfl, pyIn_empty]
    rfl
  refine ⟨hempty, fun q => ?_⟩
  rw [hempty]
  unfold search_by_text
  exact filterMap_if_sublist _ _ g

/-! ## nlu_module.py — NLUModule

The SentenceTransformer embedding provider is external; wherever the
code computes a cosine similarity between two texts it is modelled by a
parameter `sim : String → String → Rat` (deterministic for identical
input, per the spec's external-interface contract). -/

/-- Characters-level splitter for Python `str.split()` (no argument):
split at every whitespace character, then drop empty pieces. -/
def splitCharsAux (p : Char → Bool) : List Char → List Char →
    List (List Char)
  | [], acc => [acc.reverse]
  | c :: rest, acc =>
    if p c then acc.reverse :: splitCharsAux p rest []
    else splitCharsAux p rest (c :: acc)

/-- Python `s.split()` without arguments. -/
def pySplit (s : String) : List String :=
  ((splitCharsAux Char.isWhitespace s.data []).map String.mk).filter
    (fun w => w ≠ "")

/-- `NLUModule.is_followup_question` pronoun list. -/
def followupPronouns : List String :=
  ["it", "this", "that", "they", "these", "those", "there"]

/-- `NLUModule.is_followup_question` follow-up phrases. -/
def followupPhrases : List String :=
  ["what about", "how about", "tell me more", "and", "also", "what else",
   "more information"]

/-- `NLUModule.is_followup_question` leading conjunctions. -/
def followupConjunctions : List String := ["and", "but", "or", "so"]

/-- `NLUModule.is_followup_question(text, context)`: pronoun tokens are
matched space-padded, phrases and conjunctions by substring / prefix.
The `context` argument is accepted but never read by the code. -/
def is_followup_question (text : String) (context : Attrs) : Bool :=
  let t := pyLower text
  let has_pronouns := followupPronouns.any
    (fun p => pyIn (" " ++ p ++ " ") (" " ++ t ++ " "))
  let has_followup := followupPhrases.any (fun ph => pyIn ph t)
  let starts_with_conjunction :=
    followupConjunctions.any (fun c => pyStartsWith t c)
  has_pronouns || has_followup || starts_with_conjunction

/-! ## orb_ai.py — ORBAI._is_follow_up_question -/

/-- `ORBAI` pronoun list (same set, source order). -/
def orbPronouns : List String :=
  ["it", "this", "that", "these", "those", "they", "there"]

/-- `ORBAI._is_follow_up_question(query, classification)`: standalone
pronoun word, or no extracted entities while `context['last_entities']`
is truthy.  `last_entities` is `None` before the first turn, else the
previously extracted entity list. -/
def is_follow_up_question (lastEntities : Option (List String))
    (query : String) (classificationEntities : List String) : Bool :=
  let ql := pyLower query
  let has_pronouns := orbPronouns.any (fun p => (pySplit ql).contains p)
  let has_no_entities := classificationEntities.isEmpty
  let has_previous_context :=
    match lastEntities with
    | none => false
    | some l => !l.isEmpty
  has_pronouns || (has_no_entities && has_previous_context)

/-- C3 — counterexample.  The query "what about the hostel" contains
the follow-up discourse cue "what about", so per the claim it must be
marked as a follow-up; `ORBAI._is_follow_up_question` returns false on
it whenever an entity was extracted (the pattern extractor does extract
"hostel"), because that implementation only checks standalone pronouns
and the no-entities-with-context condition, never discourse cues or
leading conjunctions. -/
theorem followup_cue_ignored_cex :
    is_follow_up_question (some ["Central Library"]) "what about the hostel"
      ["hostel"] = false
    ∧ pyIn "what about" (pyLower "what about the hostel") = true := by
  constructor <;> rfl

/-- C3 (amended): `NLUModule.is_followup_question` marks a query as a
follow-up when it contains a space-padded pronoun token, or a follow-up
cue phrase as a substring, or starts with a coordinating conjunction —
but it ignores the prior session context entirely (the no-entities-with-
context clause is absent); `ORBAI._is_follow_up_question` marks a query
as a follow-up when it contains a standalone pronoun word, or no
entities were extracted while the prior `last_entities` context is
non-empty — but it never checks discourse cues or leading
conjunctions. -/
theorem followup_detection_amended :
    (∀ (text : String) (context : Attrs),
        followupPronouns.any
            (fun p => pyIn (" " ++ p ++ " ") (" " ++ pyLower text ++ " "))
          = true →
        is_followup_question text context = true)
    ∧ (∀ (text : String) (context : Attrs),
        followupPhrases.any (fun ph => pyIn ph (pyLower text)) = true →
        is_followup_question text context = true)
    ∧ (∀ (text : String) (context : Attrs),
        followupConjunctions.any (fun c => pyStartsWith (pyLower text) c)
          = true →
        is_followup_question text context = true)
    ∧ (∀ (text : String) (c₁ c₂ : Attrs),
        is_followup_question text c₁ = is_followup_question text c₂)
    ∧ (∀ (le : Option (List String)) (q : String) (ents : List String),
        orbPronouns.any (fun p => (pySplit (pyLower q)).contains p) = true →
        is_follow_up_question le q ents = true)
    ∧ (∀ (le : List String) (q : String),
        le ≠ [] →
        is_follow_up_question (some le) q [] = true) := by
  refine ⟨?_, ?_, ?_, ?_, ?_, ?_⟩
  · intro text context h
    simp [is_followup_question, h]
  · intro text context h
    simp [is_followup_question, h]
  · intro text context h
    simp [is_followup_question, h]
  · intro text c₁ c₂
    rfl
  · intro le q ents h
    simp only [is_follow_up_question]
    rw [h]
    rfl
  · intro le q hne
    simp [is_follow_up_question, List.isEmpty_iff, hne]

/-- C3 — witness for the amended theorem at concrete queries: a cue
phrase triggers the NLU detector, a standalone pronoun triggers the ORB
detector, and an entity-free query with non-empty prior context
triggers the ORB detector. -/
theorem followup_detection_amended_witness :
    is_followup_question "what about fees" [] = true
    ∧ is_follow_up_question none "where is it" [] = true
    ∧ is_follow_up_question (some ["Tech Park"]) "hello" [] = true :=
  ⟨followup_detection_amended.2.1 "what about fees" [] (by decide),
   followup_detection_amended.2.2.2.2.1 none "where is it" [] (by decide),
   followup_detection_amended.2.2.2.2.2 ["Tech Park"] "hello"
     (by decide)⟩

/-! ## nlu_module.py — NLUModule.find_best_matches

`similarities.argsort()[-top_k:][::-1]` selects the indices of the
`top_k` largest similarities.  numpy's argsort is modelled as the stable
ascending argsort (for the short arrays this code ranks, numpy's sort
degenerates to a stable insertion sort): ties keep ascending index
order, so after the final reversal tied candidates come out in REVERSE
input order. -/

/-- Ascending lexicographic order on (index, similarity) pairs, by
similarity first and then by index (the stability tie-break). -/
def lexLe (p q : Nat × Rat) : Prop :=
  p.2 < q.2 ∨ (p.2 = q.2 ∧ p.1 ≤ q.1)

instance (p q : Nat × Rat) : Decidable (lexLe p q) :=
  inferInstanceAs (Decidable (_ ∨ _))

theorem lexLe_total {p q : Nat × Rat} (h : ¬lexLe p q) : lexLe q p := by
  unfold lexLe at *
  push_neg at h
  rcases lt_or_eq_of_le h.1 with hlt | heq
  · exact Or.inl hlt
  · exact Or.inr ⟨heq, le_of_lt (h.2 heq.symm)⟩

theorem lexLe_trans {p q r : Nat × Rat} (h1 : lexLe p q) (h2 : lexLe q r) :
    lexLe p r := by
  unfold lexLe at *
  rcases h1 with h1 | ⟨e1, l1⟩ <;> rcases h2 with h2 | ⟨e2, l2⟩
  · exact Or.inl (h1.trans h2)
  · exact Or.inl (by rw [← e2]; exact h1)
  · exact Or.inl (by rw [e1]; exact h2)
  · exact Or.inr ⟨e1.trans e2, l1.trans l2⟩

def insertPairAsc (p : Nat × Rat) : List (Nat × Rat) → List (Nat × Rat)
  | [] => [p]
  | q :: qs => if lexLe p q then p :: q :: qs else q :: insertPairAsc p qs

def isortPairsAsc : List (Nat × Rat) → List (Nat × Rat)
  | [] => []
  | p :: ps => insertPairAsc p (isortPairsAsc ps)

theorem insertPairAsc_perm (p : Nat × Rat) (l : List (Nat × Rat)) :
    (insertPairAsc p l).Perm (p :: l) := by
  induction l with
  | nil => exact List.Perm.refl _
  | cons q qs ih =>
    unfold insertPairAsc
    by_cases h : lexLe p q
    · rw [if_pos h]
    · rw [if_neg h]
      exact (ih.cons q).trans (List.Perm.swap p q qs)

theorem insertPairAsc_pairwise (p : Nat × Rat) (l : List (Nat × Rat))
    (h : l.Pairwise lexLe) : (insertPairAsc p l).Pairwise lexLe := by
  induction l with
  | nil => simp [insertPairAsc, lexLe]
  | cons q qs ih =>
    rcases List.pairwise_cons.mp h with ⟨hq, hqs⟩
    unfold insertPairAsc
    by_cases hle : lexLe p q
    · rw [if_pos hle]
      refine List.pairwise_cons.mpr ⟨?_, h⟩
      intro x hx
      rcases List.mem_cons.mp hx with rfl | hxqs
      · exact hle
      · exact lexLe_trans hle (hq x hxqs)
    · rw [if_neg hle]
      refine List.pairwise_cons.mpr ⟨?_, ih hqs⟩
      intro x hx
      rcases List.mem_cons.mp ((insertPairAsc_perm p qs).mem_iff.mp hx) with
        rfl | hxqs
      · exact lexLe_total hle
      · exact hq x hxqs

theorem isortPairsAsc_perm (l : List (Nat × Rat)) :
    (isortPairsAsc l).Perm l := by
  induction l with
  | nil => exact List.Perm.refl _
  | cons p ps ih => exact (insertPairAsc_perm p _).trans (ih.cons p)

theorem isortPairsAsc_pairwise (l : List (Nat × Rat)) :
    (isortPairsAsc l).Pairwise lexLe := by
  induction l with
  | nil => exact List.Pairwise.nil
  | cons p ps ih => exact insertPairAsc_pairwise p _ ih

/-- numpy `similarities.argsort()`: the indices of the array, stably
sorted by ascending value. -/
def argsortAsc (sims : List Rat) : List Nat :=
  (isortPairsAsc
    ((List.range sims.length).map (fun i => (i, sims.getD i 0)))).map
    Prod.fst

/-- Python slice `arr[-k:]`: the last `k` elements — the WHOLE array
when `k = 0` (since `arr[-0:]` is `arr[0:]`). -/
def pyLastSlice {α : Type} (k : Nat) (l : List α) : List α :=
  if k = 0 then l else l.drop (l.length - k)

/-- The selected index list `argsort()[-top_k:][::-1]`. -/
def rank_indices (sims : List Rat) (top_k : Nat) : List Nat :=
  (pyLastSlice top_k (argsortAsc sims)).reverse

/-- `NLUModule.find_best_matches(query, candidates, top_k=3)`:
`[(candidates[i], similarities[i]) for i in top_indices]`.  Any internal
fault is caught and surfaced as `[]`; the pure model is total, which is
the same observable behaviour. -/
def find_best_matches (sim : String → String → Rat) (query : String)
    (candidates : List String) (top_k : Nat := 3) : List (String × Rat) :=
  let sims := candidates.map (fun c => sim query c)
  (rank_indices sims top_k).map
    (fun i => (candidates.getD i "", sims.getD i 0))

/-- C7: ranking against an empty candidate list returns the empty list
for every query, similarity provider and `top_k` (in the source the
degenerate cosine-similarity call raises and the surrounding
`try/except` returns `[]`; no error escapes the ranker boundary). -/
theorem find_best_matches_empty_candidates :
    ∀ (sim : String → String → Rat) (q : String) (k : Nat),
      find_best_matches sim q [] k = [] := by
  intro sim q k
  unfold find_best_matches rank_indices argsortAsc pyLastSlice isortPairsAsc
  by_cases h : k = 0 <;> simp [h]

/-- A similarity oracle giving every candidate the same score. -/
def simTie : String → String → Rat := fun _ _ => 1

/-- C6 — counterexample.  With two equally-similar candidates given in
input order ["a", "b"], the ranker returns "b" BEFORE "a": ties are
broken by the REVERSE of the candidates' original order (an ascending
argsort is reversed), not by their original order as the claim states.
Moreover `top_k = 0` returns all candidates (`arr[-0:]` is the whole
array), not at most 0. -/
theorem find_best_matches_tie_cex :
    find_best_matches simTie "q" ["a", "b"] 3 = [("b", 1), ("a", 1)]
    ∧ simTie "q" "a" = simTie "q" "b"
    ∧ (find_best_matches simTie "q" ["a", "b"] 0).length = 2 := by
  exact ⟨rfl, rfl, rfl⟩

theorem pairwise_imp_of_mem {α : Type} {R S : α → α → Prop}
    {l : List α} (H : ∀ a b, a ∈ l → b ∈ l → R a b → S a b)
    (h : l.Pairwise R) : l.Pairwise S := by
  induction l with
  | nil => exact List.Pairwise.nil
  | cons a tl ih =>
    rcases List.pairwise_cons.mp h with ⟨ha, htl⟩
    refine List.pairwise_cons.mpr ⟨?_, ?_⟩
    · intro b hb
      exact H a b (List.mem_cons_self a tl) (List.mem_cons_of_mem a hb)
        (ha b hb)
    · exact ih
        (fun x y hx hy hr =>
          H x y (List.mem_cons_of_mem a hx) (List.mem_cons_of_mem a hy) hr)
        htl

theorem pyLastSlice_sublist {α : Type} (k : Nat) (l : List α) :
    (pyLastSlice k l).Sublist l := by
  unfold pyLastSlice
  by_cases h : k = 0
  · rw [if_pos h]
  · rw [if_neg h]
    exact List.drop_sublist _ l

theorem pyLastSlice_length_le {α : Type} (k : Nat) (l : List α)
    (hk : 1 ≤ k) : (pyLastSlice k l).length ≤ k := by
  unfold pyLastSlice
  rw [if_neg (by omega)]
  rw [List.length_drop]
  omega

theorem getD_map_rat (cands : List String) (f : String → Rat) (i : Nat)
    (h : i < cands.length) :
    (cands.map f).getD i 0 = f (cands.getD i "") := by
  rw [List.getD_eq_getElem?_getD, List.getD_eq_getElem?_getD,
    List.getElem?_map, List.getElem?_eq_getElem h]
  rfl

/-- Every pair in the sorted index/similarity list is a genuine
(index, its similarity) pair with an in-range index. -/
theorem mem_isort_range (sims : List Rat) (p : Nat × Rat)
    (hm : p ∈ isortPairsAsc
      ((List.range sims.length).map (fun i => (i, sims.getD i 0)))) :
    p.1 < sims.length ∧ p.2 = sims.getD p.1 0 := by
  have hm0 := (isortPairsAsc_perm _).mem_iff.mp hm
  rcases List.mem_map.mp hm0 with ⟨i, hi, heq⟩
  subst heq
  exact ⟨List.mem_range.mp hi, rfl⟩

/-- The sorted pair list is pairwise strictly ascending in
(similarity, index) lexicographic order: indices are distinct. -/
theorem isort_range_pairwise_strict (sims : List Rat) :
    (isortPairsAsc
        ((List.range sims.length).map (fun i => (i, sims.getD i 0)))).Pairwise
      (fun p q => p.2 < q.2 ∨ (p.2 = q.2 ∧ p.1 < q.1)) := by
  have hpw := isortPairsAsc_pairwise
    ((List.range sims.length).map (fun i => (i, sims.getD i 0)))
  have hne0 : ((List.range sims.length).map
      (fun i => (i, sims.getD i 0))).Pairwise (fun p q => p.1 ≠ q.1) := by
    rw [List.pairwise_map]
    exact (List.pairwise_lt_range sims.length).imp (fun h => Nat.ne_of_lt h)
  have hne : (isortPairsAsc
      ((List.range sims.length).map (fun i => (i, sims.getD i 0)))).Pairwise
        (fun p q => p.1 ≠ q.1) :=
    ((isortPairsAsc_perm _).pairwise_iff (fun h => h.symm)).mpr hne0
  refine (hpw.and hne).imp ?_
  intro p q hpq
  rcases hpq with ⟨hle | ⟨he, hle⟩, hne1⟩
  · exact Or.inl hle
  · exact Or.inr ⟨he, lt_of_le_of_ne hle hne1⟩

/-- C6 (amended): for every `top_k ≥ 1` the ranker returns at most
`top_k` pairs; the output is sorted descending by similarity score;
the selected index sequence is strictly descending in (similarity,
index) lexicographic order — so two candidates with EQUAL similarity
appear in the REVERSE of their original input order; and every returned
pair is a genuine (candidate, its own similarity) pair. -/
theorem find_best_matches_amended :
    ∀ (sim : String → String → Rat) (q : String) (cands : List String)
      (k : Nat),
      (1 ≤ k → (find_best_matches sim q cands k).length ≤ k)
      ∧ (find_best_matches sim q cands k).Pairwise (fun a b => b.2 ≤ a.2)
      ∧ (rank_indices (cands.map (fun c => sim q c)) k).Pairwise
          (fun i j =>
            (cands.map (fun c => sim q c)).getD j 0
                < (cands.map (fun c => sim q c)).getD i 0
              ∨ ((cands.map (fun c => sim q c)).getD j 0
                    = (cands.map (fun c => sim q c)).getD i 0
                  ∧ j < i))
      ∧ ∀ p ∈ find_best_matches sim q cands k,
          ∃ i, i < cands.length ∧ p.1 = cands.getD i ""
            ∧ p.2 = sim q (cands.getD i "") := by
  intro sim q cands k
  have hres : find_best_matches sim q cands k
      = (rank_indices (cands.map (fun c => sim q c)) k).map
          (fun i => (cands.getD i "",
            (cands.map (fun c => sim q c)).getD i 0)) := rfl
  have hargsort : (argsortAsc (cands.map (fun c => sim q c))).Pairwise
      (fun a b =>
        (cands.map (fun c => sim q c)).getD a 0
            < (cands.map (fun c => sim q c)).getD b 0
          ∨ ((cands.map (fun c => sim q c)).getD a 0
                = (cands.map (fun c => sim q c)).getD b 0
              ∧ a < b)) := by
    unfold argsortAsc
    rw [List.pairwise_map]
    apply pairwise_imp_of_mem ?_
      (isort_range_pairwise_strict (cands.map (fun c => sim q c)))
    intro p r hp hr hpr
    rcases mem_isort_range _ p hp with ⟨_, hpv⟩
    rcases mem_isort_range _ r hr with ⟨_, hrv⟩
    rcases hpr with hlt | ⟨he, hlt⟩
    · exact Or.inl (by rw [← hpv, ← hrv]; exact hlt)
    · exact Or.inr ⟨by rw [← hpv, ← hrv]; exact he, hlt⟩
  have hidx : (rank_indices (cands.map (fun c => sim q c)) k).Pairwise
      (fun i j =>
        (cands.map (fun c => sim q c)).getD j 0
            < (cands.map (fun c => sim q c)).getD i 0
          ∨ ((cands.map (fun c => sim q c)).getD j 0
                = (cands.map (fun c => sim q c)).getD i 0
              ∧ j < i)) := by
    unfold rank_indices
    rw [List.pairwise_reverse]
    exact hargsort.sublist (pyLastSlice_sublist k _)
  have hmemidx : ∀ i ∈ rank_indices (cands.map (fun c => sim q c)) k,
      i < cands.length := by
    intro i hi
    unfold rank_indices at hi
    rw [List.mem_reverse] at hi
    have hi2 := (pyLastSlice_sublist k _).subset hi
    unfold argsortAsc at hi2
    rcases List.mem_map.mp hi2 with ⟨p, hp, heq⟩
    have hlt := (mem_isort_range _ p hp).1
    rw [List.length_map] at hlt
    rw [← heq]
    exact hlt
  refine ⟨?_, ?_, hidx, ?_⟩
  · intro hk
    rw [hres, List.length_map]
    unfold rank_indices
    rw [List.length_reverse]
    exact pyLastSlice_length_le k _ hk
  · rw [hres, List.pairwise_map]
    refine hidx.imp ?_
    intro i j h
    rcases h with h | ⟨h, _⟩
    · exact le_of_lt h
    · exact le_of_eq h
  · intro p hp
    rw [hres] at hp
    rcases List.mem_map.mp hp with ⟨i, hi, heq⟩
    have hlen : i < cands.length := hmemidx i hi
    refine ⟨i, hlen, ?_, ?_⟩
    · rw [← heq]
    · rw [← heq]
      exact getD_map_rat cands (fun c => sim q c) i hlen

/-- C6 — witness for the amended theorem at a concrete ranking call. -/
theorem find_best_matches_amended_witness :
    (find_best_matches simTie "q" ["a", "b"] 3).length ≤ 3
    ∧ (find_best_matches simTie "q" ["a", "b"] 3).Pairwise
        (fun a b => b.2 ≤ a.2) :=
  ⟨(find_best_matches_amended simTie "q" ["a", "b"] 3).1 (by decide),
   (find_best_matches_amended simTie "q" ["a", "b"] 3).2.1⟩

/-! ## enhanced_chatbot.py — EnhancedChatbot

The knowledge base is the JSON object loaded at startup:
category → entity → attribute dict.  `get_semantic_similarity` and the
embedding calls inside ranking are the external provider, modelled by
the oracle `sim` (its `try/except` returns 0.0 on a provider fault, so
the pure total oracle covers both outcomes). -/

abbrev KB := List (String × List (String × Attrs))

/-- Python `d.get(k, default)`. -/
def pyGetD (d : Attrs) (k : String) (dflt : Value) : Value :=
  (plookup d k).getD dflt

/-- Python `d.get(k)` (default `None`). -/
def pyGet (d : Attrs) (k : String) : Value := pyGetD d k Value.null

/-- Python `d.get(k, [])` for keys that hold lists when present. -/
def getListV (d : Attrs) (k : String) : VList :=
  match plookup d k with
  | some (Value.vlist vs) => vs
  | _ => VList.nil

def isVdict : Value → Bool
  | .vdict _ => true
  | _ => false

/-- Python `response.get('confidence', 0)` read as a number. -/
def get_confidence (r : Attrs) : Rat :=
  match plookup r "confidence" with
  | some (Value.num q) => q
  | _ => 0

/-- `EnhancedChatbot._get_entity_info(entity, intent)`: find the first
knowledge-base category containing `entity` as a key, build
`{'type': intent, 'entity': entity, 'confidence': 1.0}` and update it
with intent-specific fields; `{'confidence': 0.0}` when the entity is
in no category. -/
def get_entity_info (kb : KB) (entity intent : String) : Attrs :=
  match kb.find? (fun ci => pcontains ci.2 entity) with
  | none => [("confidence", Value.num 0)]
  | some (category, items) =>
    let entity_data := (plookup items entity).getD []
    let response := [("type", Value.str intent),
      ("entity", Value.str entity), ("confidence", Value.num 1)]
    if intent == "location" then
      pyUpdate response
        [("address", pyGet entity_data "address"),
         ("location", pyGet entity_data "location"),
         ("map_link", pyGet entity_data "map_link")]
    else if intent == "description" then
      pyUpdate response
        [("description", pyGet entity_data "description"),
         ("type_info", pyGet entity_data "type"),
         ("category", Value.str category)]
    else if intent == "facilities" then
      pyUpdate response
        [("facilities", Value.vlist
            ((getListV entity_data "facilities").append
              (getListV entity_data "amenities"))),
         ("description", pyGet entity_data "description")]
    else if intent == "contact" then
      pyUpdate response
        [("contact", pyGet entity_data "contact"),
         ("additional_info", pyGet entity_data "description")]
    else
      pyUpdate response
        (entity_data.filter
          (fun kv => kv.1 != "id" && kv.1 != "type" && !isVdict kv.2))

/-- The entity loop of `EnhancedChatbot._find_best_match`: return the
info of the FIRST extracted entity whose lookup confidence exceeds
0.6. -/
def first_good_entity (kb : KB) (intent : String) :
    List String → Option Attrs
  | [] => none
  | e :: rest =>
    let response := get_entity_info kb e intent
    if mkRat 6 10 < get_confidence response then some response
    else first_good_entity kb intent rest

/-- Comma-join of a Python list of strings. -/
def joinComma (vs : VList) : String :=
  String.intercalate ", " ((VList.toListV vs).map pyStr)

def contactPairs : VDict → List String
  | .nil => []
  | .cons k v tl => (k ++ ": " ++ pyStr v) :: contactPairs tl

/-- `EnhancedChatbot._get_candidate_responses`: one description line per
entity plus conditional facilities / address / contact lines. -/
def get_candidate_responses (kb : KB) : List String :=
  kb.flatMap (fun ci =>
    ci.2.flatMap (fun ei =>
      let entity := ei.1
      let data := ei.2
      [entity ++ ": " ++ pyStr (pyGetD data "description" (Value.str ""))]
      ++ (if pcontains data "facilities" then
            [entity ++ " facilities: " ++ joinComma (getListV data "facilities")]
          else [])
      ++ (if pcontains data "address" then
            [entity ++ " is located at " ++ pyStr (pyGet data "address")]
          else [])
      ++ (if pcontains data "contact" then
            match plookup data "contact" with
            | some (Value.vdict kvs) =>
              ["Contact " ++ entity ++ ": "
                ++ String.intercalate ", " (contactPairs kvs)]
            | some v => ["Contact " ++ entity ++ ": " ++ pyStr v]
            | none => ["Contact " ++ entity ++ ": " ++ pyStr Value.null]
          else [])))

/-- Python `s.split(sep, 1)` on characters: text before the first
separator, and optionally the remainder after it. -/
def splitFirst (sep : Char) : List Char → List Char × Option (List Char)
  | [] => ([], none)
  | c :: rest =>
    if c = sep then ([], some rest)
    else
      let r := splitFirst sep rest
      (c :: r.1, r.2)

/-- `EnhancedChatbot._format_candidate_response`. -/
def format_candidate_response (candidate : String) (confidence : Rat) :
    Attrs :=
  let parts := splitFirst ':' candidate.data
  let entity := pyStrip (String.mk parts.1)
  let info :=
    match parts.2 with
    | some rest => pyStrip (String.mk rest)
    | none => ""
  let response_type :=
    if pyIn "located at" candidate then "location"
    else if pyIn "facilities" candidate then "facilities"
    else if pyIn "Contact" candidate then "contact"
    else "description"
  [("type", Value.str response_type), ("entity", Value.str entity),
   ("description", Value.str info), ("confidence", Value.num confidence)]

/-- The similar-entity collection loop of
`EnhancedChatbot._generate_fallback_response`: every knowledge-base
entity whose similarity to some extracted entity exceeds the 0.5
floor. -/
def similar_entities_list (sim : String → String → Rat) (kb : KB)
    (entities : List String) : List (String × Rat) :=
  entities.flatMap (fun entity =>
    kb.flatMap (fun ci =>
      ci.2.filterMap (fun ei =>
        let s := sim entity ei.1
        if mkRat 5 10 < s then some (ei.1, s) else none)))

/-- Stable insertion into a descending-score list (Python `list.sort`
with `reverse=True` is stable: equal scores keep original order). -/
def insertScoreDesc (p : String × Rat) :
    List (String × Rat) → List (String × Rat)
  | [] => [p]
  | q :: qs => if q.2 ≤ p.2 then p :: q :: qs else q :: insertScoreDesc p qs

def sortScoresDesc : List (String × Rat) → List (String × Rat)
  | [] => []
  | p :: ps => insertScoreDesc p (sortScoresDesc ps)

/-- The fixed domain-wide example questions used when no similar entity
is found. -/
def fallbackSuggestionsGeneric : List String :=
  ["Tell me about the Kattankulathur Campus",
   "What facilities are available in Tech Park?",
   "How can I contact the admissions office?",
   "What are the hostel facilities?",
   "Where is the Central Library?"]

/-- `EnhancedChatbot._generate_fallback_response(analysis, session_id)`:
three suggested questions per similar entity (top 3 by similarity) or
the fixed generic list, capped at 5, with confidence 0.0.  (The session
context is fetched by the source but never used to build the
response.) -/
def generate_fallback_response (sim : String → String → Rat) (kb : KB)
    (entities : List String) : Attrs :=
  let similar_entities := sortScoresDesc (similar_entities_list sim kb entities)
  let suggestions :=
    if similar_entities.isEmpty then fallbackSuggestionsGeneric
    else
      (similar_entities.take 3).flatMap (fun p =>
        ["What is " ++ p.1 ++ "?",
         "Tell me about " ++ p.1,
         "Where is " ++ p.1 ++ " located?"])
  [("type", Value.str "fallback"),
   ("message", Value.str
     "I'm not quite sure about that. Here are some related questions you might be interested in:"),
   ("suggestions", strs (suggestions.take 5)),
   ("confidence", Value.num 0)]

/-- `EnhancedChatbot._find_best_match(analysis, session_id)`: first
extracted entity above the 0.6 acceptance threshold, else semantic
ranking of candidate lines, else the fallback response. -/
def find_best_match (sim : String → String → Rat) (kb : KB)
    (entities : List String) (intent : String) (processed_query : String) :
    Attrs :=
  match first_good_entity kb intent entities with
  | some response => response
  | none =>
    let candidates := get_candidate_responses kb
    if candidates.isEmpty then generate_fallback_response sim kb entities
    else
      match find_best_matches sim processed_query candidates 3 with
      | (best_match, confidence) :: _ =>
        if mkRat 6 10 < confidence then
          format_candidate_response best_match confidence
        else generate_fallback_response sim kb entities
      | [] => generate_fallback_response sim kb entities

theorem plookup_none_of_pcontains_false {α : Type} (l : List (String × α))
    (k : String) (h : pcontains l k = false) : plookup l k = none := by
  have hiff := pcontains_iff_plookup l k
  rw [h] at hiff
  cases hl : plookup l k
  · rfl
  · rw [hl] at hiff
    cases hiff

theorem pcontains_filter_false {α : Type} (l : List (String × α))
    (p : String × α → Bool) (k : String) (h : pcontains l k = false) :
    pcontains (l.filter p) k = false := by
  induction l with
  | nil => rfl
  | cons kv tl ih =>
    rw [pcontains, List.any_cons, Bool.or_eq_false_iff] at h
    rw [List.filter_cons]
    by_cases hp : p kv
    · rw [if_pos hp, pcontains, List.any_cons, h.1, Bool.false_or]
      exact ih h.2
    · rw [if_neg hp]
      exact ih h.2

theorem get_confidence_update_one (extra : Attrs) (tI e : String)
    (hx : plookup extra "confidence" = none) :
    get_confidence (pyUpdate [("type", Value.str tI),
      ("entity", Value.str e), ("confidence", Value.num 1)] extra) = 1 := by
  unfold get_confidence
  rw [plookup_pyUpdate, hx]
  rfl

theorem first_good_entity_append (kb : KB) (intent : String)
    (pre post : List String) (e : String)
    (hpre : ∀ x ∈ pre,
      ¬(mkRat 6 10 < get_confidence (get_entity_info kb x intent)))
    (he : mkRat 6 10 < get_confidence (get_entity_info kb e intent)) :
    first_good_entity kb intent (pre ++ e :: post)
      = some (get_entity_info kb e intent) := by
  induction pre with
  | nil =>
    simp only [List.nil_append, first_good_entity]
    rw [if_pos he]
  | cons x pre' ih =>
    simp only [List.cons_append, first_good_entity]
    rw [if_neg (hpre x (List.mem_cons_self x pre'))]
    exact ih (fun y hy => hpre y (List.mem_cons_of_mem x hy))

/-- C5: (i) when the extracted entity list splits as
`pre ++ e :: post` with every entity of `pre` at or below the 0.6
acceptance threshold and `e` above it, the Resolution Engine returns
exactly `e`'s lookup — the FIRST sufficiently-confident entity in
extraction order, regardless of whether a later entity in `post` would
score higher; (ii) an exact id hit in the knowledge store (the entity
is a key of some category, and its stored attributes do not themselves
carry a `confidence` key that the catch-all intent branch would copy
over) yields confidence 1.0. -/
theorem resolution_first_match_and_exact_hit :
    (∀ (sim : String → String → Rat) (kb : KB) (pre post : List String)
        (e intent pq : String),
        (∀ x ∈ pre,
          ¬(mkRat 6 10 < get_confidence (get_entity_info kb x intent))) →
        mkRat 6 10 < get_confidence (get_entity_info kb e intent) →
        find_best_match sim kb (pre ++ e :: post) intent pq
          = get_entity_info kb e intent)
    ∧ (∀ (kb : KB) (e intent category : String)
        (items : List (String × Attrs)),
        kb.find? (fun ci => pcontains ci.2 e) = some (category, items) →
        pcontains ((plookup items e).getD []) "confidence" = false →
        get_confidence (get_entity_info kb e intent) = 1) := by
  constructor
  · intro sim kb pre post e intent pq hpre he
    unfold find_best_match
    rw [first_good_entity_append kb intent pre post e hpre he]
  · intro kb e intent category items hfind hnoconf
    simp only [get_entity_info, hfind]
    by_cases h1 : intent == "location"
    · rw [if_pos h1]
      exact get_confidence_update_one _ _ _ rfl
    · rw [if_neg h1]
      by_cases h2 : intent == "description"
      · rw [if_pos h2]
        exact get_confidence_update_one _ _ _ rfl
      · rw [if_neg h2]
        by_cases h3 : intent == "facilities"
        · rw [if_pos h3]
          exact get_confidence_update_one _ _ _ rfl
        · rw [if_neg h3]
          by_cases h4 : intent == "contact"
          · rw [if_pos h4]
            exact get_confidence_update_one _ _ _ rfl
          · rw [if_neg h4]
            exact get_confidence_update_one _ _ _
              (plookup_none_of_pcontains_false _ _
                (pcontains_filter_false _ _ _ hnoconf))

/-- A small concrete knowledge base for witnesses: one category with
one entity. -/
def kbSmall : KB :=
  [("locations",
    [("Tech Park",
      [("description", Value.str "A state-of-the-art facility"),
       ("address", Value.str "SRM Nagar, Kattankulathur")])])]

/-- C5 — witness: with extraction order ["Unknown Hall", "Tech Park"],
the engine skips the unknown entity (confidence 0) and returns the
Tech Park lookup, and the exact hit has confidence 1.0. -/
theorem resolution_first_match_witness :
    find_best_match simTie kbSmall ["Unknown Hall", "Tech Park"]
        "location" "where is tech park"
      = get_entity_info kbSmall "Tech Park" "location"
    ∧ get_confidence (get_entity_info kbSmall "Tech Park" "location") = 1 :=
  ⟨resolution_first_match_and_exact_hit.1 simTie kbSmall ["Unknown Hall"]
      [] "Tech Park" "location" "where is tech park" (by decide) (by decide),
   resolution_first_match_and_exact_hit.2 kbSmall "Tech Park" "location"
      "locations"
      [("Tech Park",
        [("description", Value.str "A state-of-the-art facility"),
         ("address", Value.str "SRM Nagar, Kattankulathur")])]
      rfl (by decide)⟩

theorem gfr_suggestions (sim : String → String → Rat) (kb : KB)
    (entities : List String) :
    plookup (generate_fallback_response sim kb entities) "suggestions"
      = some (strs
          ((if (sortScoresDesc (similar_entities_list sim kb entities)).isEmpty
            then fallbackSuggestionsGeneric
            else
              ((sortScoresDesc (similar_entities_list sim kb entities)).take
                  3).flatMap (fun p =>
                ["What is " ++ p.1 ++ "?",
                 "Tell me about " ++ p.1,
                 "Where is " ++ p.1 ++ " located?"])).take 5)) := rfl

/-- C8: every fallback response carries confidence 0.0, the `fallback`
type tag, and a non-empty list of at most 5 suggestion strings; in
particular when no knowledge-base entity clears the 0.5 similarity
floor the suggestions are exactly the fixed domain-wide example
questions — the response is never suggestion-free. -/
theorem fallback_response_properties :
    ∀ (sim : String → String → Rat) (kb : KB) (entities : List String),
      plookup (generate_fallback_response sim kb entities) "confidence"
          = some (Value.num 0)
      ∧ plookup (generate_fallback_response sim kb entities) "type"
          = some (Value.str "fallback")
      ∧ (∃ l : List String,
          plookup (generate_fallback_response sim kb entities) "suggestions"
              = some (strs l)
            ∧ l ≠ [] ∧ l.length ≤ 5)
      ∧ (similar_entities_list sim kb entities = [] →
          plookup (generate_fallback_response sim kb entities) "suggestions"
            = some (strs fallbackSuggestionsGeneric)) := by
  intro sim kb entities
  refine ⟨rfl, rfl, ?_, ?_⟩
  · rw [gfr_suggestions]
    by_cases h : (sortScoresDesc (similar_entities_list sim kb entities)).isEmpty
    · rw [if_pos h]
      exact ⟨fallbackSuggestionsGeneric.take 5, rfl, by decide, by decide⟩
    · rw [if_neg h]
      rcases hS : sortScoresDesc (similar_entities_list sim kb entities) with
        _ | ⟨p, rest⟩
      · rw [hS] at h
        exact absurd rfl h
      · refine ⟨_, rfl, ?_, ?_⟩
        · exact List.cons_ne_nil _ _
        · rw [List.length_take]
          exact min_le_left _ _
  · intro h0
    rw [gfr_suggestions, h0]
    rfl

/-- C8 — witness: with no extracted entities nothing clears the
similarity floor, so the concrete fallback response carries the generic
suggestions and confidence 0.0. -/
theorem fallback_response_properties_witness :
    plookup (generate_fallback_response simTie kbSmall []) "suggestions"
        = some (strs fallbackSuggestionsGeneric)
    ∧ plookup (generate_fallback_response simTie kbSmall []) "confidence"
        = some (Value.num 0) :=
  ⟨(fallback_response_properties simTie kbSmall []).2.2.2 rfl,
   (fallback_response_properties simTie kbSmall []).1⟩

/-! ## admission_handler.py — AdmissionHandler -/

inductive AdmissionType where
  | domestic
  | international
  | nri
  | transfer

structure AdmissionRequirements where
  documents : List String
  eligibility : String
  contact_email : String
  procedure : String
  deadlines : List (String × String)

/-- The static requirement table of `AdmissionHandler.__init__`. -/
def admission_requirements : AdmissionType → AdmissionRequirements
  | .domestic =>
    { documents := ["10th Mark Sheet", "12th Mark Sheet",
        "SRMJEEE Score Card", "Aadhar Card", "Passport size photographs"]
      eligibility := "Minimum 60% in PCM for Engineering"
      contact_email := "admissions@srmist.edu.in"
      procedure := "Apply through SRMJEEE and counselling"
      deadlines := [("SRMJEEE Registration", "April 30"),
        ("Counselling", "June-July")] }
  | .international =>
    { documents := ["High School Transcripts",
        "Standardized Test Scores (SAT/ACT)",
        "English Proficiency (IELTS/TOEFL)", "Passport",
        "Statement of Purpose"]
      eligibility := "Completed 12 years of education with good academic record"
      contact_email := "admissions.ir@srmist.edu.in"
      procedure := "Apply through International Admissions Portal"
      deadlines := [("Fall Semester", "June 30"),
        ("Spring Semester", "December 15")] }
  | .nri =>
    { documents := ["NRI Status Proof", "Passport copies",
        "Academic transcripts", "Bank statements"]
      eligibility := "NRI/NRI Sponsored candidates"
      contact_email := "nri.admissions@srmist.edu.in"
      procedure := "Direct admission through NRI quota"
      deadlines := [("Application", "May 31"), ("Admission", "June 30")] }
  | .transfer =>
    { documents := ["Current University Transcripts",
        "No Objection Certificate", "Migration Certificate",
        "Syllabus of completed courses"]
      eligibility := "Completed at least one year at recognized university"
      contact_email := "transfer.admissions@srmist.edu.in"
      procedure := "Apply with complete transcripts for credit transfer"
      deadlines := [("Fall Transfer", "July 15"),
        ("Spring Transfer", "December 31")] }

/-- `AdmissionHandler._determine_admission_type`: keyword-table lookup
with an unconditional DOMESTIC default — the `Optional` return type
notwithstanding, no branch returns `None`. -/
def determine_admission_type (query : String) : Option AdmissionType :=
  if ["international", "foreign", "abroad", "overseas"].any
      (fun w => pyIn w query) then some .international
  else if ["nri", "non resident", "non-resident"].any
      (fun w => pyIn w query) then some .nri
  else if ["transfer", "change university", "credit transfer"].any
      (fun w => pyIn w query) then some .transfer
  else if ["domestic", "indian", "local", "srmjeee"].any
      (fun w => pyIn w query) then some .domestic
  else some .domestic

/-- `AdmissionHandler.handle_admission_query`: lowercase the query,
classify the admission type (error dict if that were ever `None`), then
assemble the keyword-selected response fields, falling back to the full
record when no keyword matched. -/
def handle_admission_query (query : String) : Attrs :=
  let q := pyLower query
  match determine_admission_type q with
  | none =>
    [("error", Value.str
      "Unable to determine admission type. Please specify if you're asking about domestic, international, NRI, or transfer admissions.")]
  | some admission_type =>
    let requirements := admission_requirements admission_type
    let response :=
      (if ["document", "require", "submit"].any (fun w => pyIn w q) then
        [("documents", strs requirements.documents)] else [])
      ++ (if ["eligible", "eligibility", "qualify"].any (fun w => pyIn w q)
          then [("eligibility", Value.str requirements.eligibility)] else [])
      ++ (if ["procedure", "process", "how to", "steps"].any
            (fun w => pyIn w q)
          then [("procedure", Value.str requirements.procedure)] else [])
      ++ (if ["deadline", "date", "when"].any (fun w => pyIn w q)
          then [("deadlines", sdict requirements.deadlines)] else [])
      ++ (if ["contact", "email", "reach"].any (fun w => pyIn w q)
          then [("contact", Value.str requirements.contact_email)] else [])
    if response.isEmpty then
      [("documents", strs requirements.documents),
       ("eligibility", Value.str requirements.eligibility),
       ("procedure", Value.str requirements.procedure),
       ("deadlines", sdict requirements.deadlines),
       ("contact", Value.str requirements.contact_email)]
    else response

/-- C9: the admission-type classifier returns a non-None type for every
input (it falls through to DOMESTIC when no type keyword occurs in the
query), so the "Unable to determine admission type" error branch of
`handle_admission_query` is unreachable: no response ever carries an
`error` key. -/
theorem admission_type_total :
    (∀ q : String, (determine_admission_type q).isSome = true)
    ∧ (∀ q : String,
        (["international", "foreign", "abroad", "overseas"].any
          (fun w => pyIn w q)) = false →
        (["nri", "non resident", "non-resident"].any
          (fun w => pyIn w q)) = false →
        (["transfer", "change university", "credit transfer"].any
          (fun w => pyIn w q)) = false →
        (["domestic", "indian", "local", "srmjeee"].any
          (fun w => pyIn w q)) = false →
        determine_admission_type q = some AdmissionType.domestic)
    ∧ (∀ q : String, plookup (handle_admission_query q) "error" = none) := by
  have hsome : ∀ q : String, (determine_admission_type q).isSome = true := by
    intro q
    unfold determine_admission_type
    split
    · rfl
    · split
      · rfl
      · split
        · rfl
        · split
          · rfl
          · rfl
  refine ⟨hsome, ?_, ?_⟩
  · intro q h1 h2 h3 h4
    unfold determine_admission_type
    rw [h1, h2, h3, h4]
    rfl
  · intro q
    cases hd : determine_admission_type (pyLower q) with
    | none =>
      have := hsome (pyLower q)
      rw [hd] at this
      cases this
    | some t =>
      simp only [handle_admission_query, hd]
      repeat' split
      all_goals rfl

/-- C9 — witness: a query with no admission-type keyword classifies as
DOMESTIC, and a concrete response carries no `error` key. -/
theorem admission_type_total_witness :
    determine_admission_type "fees please" = some AdmissionType.domestic
    ∧ plookup (handle_admission_query "Fees please") "error" = none :=
  ⟨admission_type_total.2.1 "fees please" (by decide) (by decide)
      (by decide) (by decide),
   admission_type_total.2.2 "Fees please"⟩

/-! ## context_manager.py — ContextManager (modelled from the spec) -/

/-- Modelled from the spec: one exchange recorded in the session
history (`context_manager.py` is imported by enhanced_chatbot.py but is
not among the sources). -/
structure ConversationTurn where
  query_text : String
  response : Attrs

/-- Modelled from the spec: the per-session mutable state of §3 —
append-only history, last successfully resolved entity/intent, and the
set of every entity surfaced in the session. -/
structure SessionContext where
  history : List ConversationTurn
  current_entity : Option String
  current_intent : Option String
  referenced_entities : List String

/-- Modelled from the spec: `ContextManager.update_context` of the
missing `context_manager.py`, per §4.3 — append a `ConversationTurn`,
and only when the response carries a resolved entity/intent with
confidence above the 0.6 acceptance threshold overwrite
`current_entity`/`current_intent` and add the entity to
`referenced_entities`; unsuccessful resolutions leave them unchanged.
The resolved entity and intent ride in the response under the `entity`
and `type` keys, as built by the Resolution Engine. -/
def update_context (ctx : SessionContext) (query : String)
    (response : Attrs) : SessionContext :=
  let appended :=
    { ctx with history := ctx.history ++ [⟨query, response⟩] }
  if mkRat 6 10 < get_confidence response then
    match plookup response "entity" with
    | some (Value.str e) =>
      { appended with
        current_entity := some e
        current_intent :=
          match plookup response "type" with
          | some (Value.str i) => some i
          | _ => appended.current_intent
        referenced_entities := appended.referenced_entities ++ [e] }
    | _ => appended
  else appended

/-- C4: every processed turn appends exactly one `ConversationTurn`;
when the resolution is unsuccessful (confidence at or below the 0.6
threshold) `current_entity`, `current_intent` and
`referenced_entities` are all left unchanged; when the response carries
a resolved entity with confidence above the threshold,
`current_entity` is overwritten with it and it is added to
`referenced_entities`. -/
theorem update_context_properties :
    ∀ (ctx : SessionContext) (q : String) (r : Attrs),
      (update_context ctx q r).history = ctx.history ++ [⟨q, r⟩]
      ∧ (get_confidence r ≤ mkRat 6 10 →
          (update_context ctx q r).current_entity = ctx.current_entity
          ∧ (update_context ctx q r).current_intent = ctx.current_intent
          ∧ (update_context ctx q r).referenced_entities
              = ctx.referenced_entities)
      ∧ (∀ e : String,
          mkRat 6 10 < get_confidence r →
          plookup r "entity" = some (Value.str e) →
          (update_context ctx q r).current_entity = some e
          ∧ e ∈ (update_context ctx q r).referenced_entities) := by
  intro ctx q r
  refine ⟨?_, ?_, ?_⟩
  · unfold update_context
    split
    · split <;> rfl
    · rfl
  · intro h
    unfold update_context
    rw [if_neg (not_lt.mpr h)]
    exact ⟨rfl, rfl, rfl⟩
  · intro e hconf hent
    unfold update_context
    rw [if_pos hconf, hent]
    exact ⟨rfl, List.mem_append.mpr (Or.inr (List.mem_singleton.mpr rfl))⟩

/-- C4 — witness: a confident location response overwrites the current
entity and registers it, and an unconfident response leaves an existing
anchor untouched. -/
theorem update_context_properties_witness :
    (update_context ⟨[], none, none, []⟩ "where is tech park"
        [("type", Value.str "location"), ("entity", Value.str "Tech Park"),
         ("confidence", Value.num 1)]).current_entity = some "Tech Park"
    ∧ (update_context ⟨[], some "Tech Park", none, []⟩ "hmm"
        [("confidence", Value.num 0)]).current_entity = some "Tech Park" :=
  ⟨(update_context_properties ⟨[], none, none, []⟩ "where is tech park"
      [("type", Value.str "location"), ("entity", Value.str "Tech Park"),
       ("confidence", Value.num 1)]).2.2 "Tech Park" (by decide) rfl |>.1,
   ((update_context_properties ⟨[], some "Tech Park", none, []⟩ "hmm"
      [("confidence", Value.num 0)]).2.1 (by decide)).1⟩
